import Mathlib

/-!
Shallow embedding of `bolt/Core/BinarySection.h` (class `llvm::bolt::BinarySection`):
the section data model, its classification predicates, the three relocation stores,
content finalization, and the section ordering `operator<`.

Machine integers (`uint64_t`) are modelled as `Nat`; where 64-bit wraparound is
observable (`getEndAddress`) the sum is reduced modulo `2 ^ 64`.  Pointers are
modelled as abstract `Nat` addresses (`0` = null).  C++ `assert` faults are
modelled by returning `none` from the operation.
-/

namespace BoltModel

/-- Models `ELF::SHT_NULL` -/
def SHT_NULL : Nat := 0
/-- Models `ELF::SHT_PROGBITS` -/
def SHT_PROGBITS : Nat := 1
/-- Models `ELF::SHT_RELA` -/
def SHT_RELA : Nat := 4
/-- Models `ELF::SHT_NOBITS` -/
def SHT_NOBITS : Nat := 8
/-- Models `ELF::SHF_WRITE` -/
def SHF_WRITE : Nat := 1
/-- Models `ELF::SHF_ALLOC` -/
def SHF_ALLOC : Nat := 2
/-- Models `ELF::SHF_EXECINSTR` -/
def SHF_EXECINSTR : Nat := 4
/-- Models `ELF::SHF_TLS` -/
def SHF_TLS : Nat := 1024

/-- A relocation record (`struct Relocation`): offset, target symbol (opaque
identity), numeric type tag, addend and cached value.  Per the spec, ordering in
the relocation stores keys on the offset only. -/
structure Relocation where
  offset : Nat
  symbol : Nat
  rType : Nat
  addend : Nat
  value : Nat
deriving DecidableEq, Repr

/-- Insertion into an offset-ordered multiset (`std::multiset` keyed on the
offset): the new record is placed after all records with offset `≤` its own,
as `multiset::emplace` inserts at the upper bound. -/
def insertReloc : List Relocation → Relocation → List Relocation
  | [], r => [r]
  | x :: xs, r =>
    if x.offset ≤ r.offset then x :: insertReloc xs r else r :: x :: xs

/-- Exact-offset lookup in a relocation store: the first record at the given
offset, or none (`find` on the offset-keyed multiset; a null result models the
null pointer). -/
def findRelocAt (rs : List Relocation) (off : Nat) : Option Relocation :=
  rs.find? (fun r => r.offset == off)

/-- Locate and remove the first record at the given offset, returning the
record (if any) and the remaining store (`find` followed by `erase(Itr)`). -/
def takeFirstAt : List Relocation → Nat → Option Relocation × List Relocation
  | [], _ => (none, [])
  | x :: xs, off =>
    if x.offset = off then (some x, xs)
    else
      let p := takeFirstAt xs off
      (p.1, x :: p.2)

/-- The state of one `BinarySection`.  `bcIsELF` is the owning
`BinaryContext`'s `isELF()` answer; `hasSectionRef` records whether `Section`
differs from the default `SectionRef()`; `refIsText` is what
`getSectionRef().isText()` would answer (consulted only behind a
`hasSectionRef` guard); `contentsData` is the abstract address of the
`Contents` view's data pointer and `contents` its bytes. -/
structure BinarySection where
  bcIsELF : Bool
  name : String
  hasSectionRef : Bool
  refIsText : Bool
  contentsData : Nat
  contents : List Nat
  address : Nat
  size : Nat
  inputFileOffset : Nat
  alignment : Nat
  elfType : Nat
  elfFlags : Nat
  relocations : List Relocation
  dynamicRelocations : List Relocation
  pendingRelocations : List Relocation
  patches : List (Nat × List Nat)
  isFinalized : Bool
  outputName : String
  outputAddress : Nat
  outputSize : Nat
  outputFileOffset : Nat
  outputContents : List Nat
  sectionNumber : Nat
  sectionID : String
  index : Nat
deriving DecidableEq, Repr

namespace BinarySection

/-- Models `getEndAddress()`: `Address + Size` in `uint64_t` arithmetic. -/
def endAddress (s : BinarySection) : Nat := (s.address + s.size) % 2 ^ 64

/-- Models `isText()`. -/
def isText (s : BinarySection) : Bool :=
  if s.bcIsELF then s.elfFlags &&& SHF_EXECINSTR != 0
  else s.hasSectionRef && s.refIsText

/-- Models `isBSS()`. -/
def isBSS (s : BinarySection) : Bool :=
  s.elfType == SHT_NOBITS && (s.elfFlags &&& (SHF_ALLOC ||| SHF_WRITE)) != 0

/-- Models `isTLS()`. -/
def isTLS (s : BinarySection) : Bool := s.elfFlags &&& SHF_TLS != 0

/-- Models `isTBSS()`. -/
def isTBSS (s : BinarySection) : Bool := s.isBSS && s.isTLS

/-- Models `isWritable()`. -/
def isWritable (s : BinarySection) : Bool := s.elfFlags &&& SHF_WRITE != 0

/-- Models `isAllocatable()`: on ELF, `SHF_ALLOC` and not a TLS-BSS section; on
non-ELF, every section is assumed allocatable. -/
def isAllocatable (s : BinarySection) : Bool :=
  if s.bcIsELF then (s.elfFlags &&& SHF_ALLOC != 0) && !s.isTBSS
  else true

/-- Models `containsAddress(Address)`: input-geometry membership, with the zero-size
special case. -/
def containsAddress (s : BinarySection) (a : Nat) : Bool :=
  (decide (s.address ≤ a) && decide (a < s.endAddress)) ||
  (decide (s.size = 0) && decide (s.address = a))

/-- Models `containsRange(Address, Size)`. -/
def containsRange (s : BinarySection) (a sz : Nat) : Bool :=
  s.containsAddress a && decide ((a + sz) % 2 ^ 64 ≤ s.endAddress)

/-- Models `hasValidSectionID()`. -/
def hasValidSectionID (s : BinarySection) : Bool := s.sectionID != ""

/-- Models `operator<`: the ordering policy cascade. -/
def sectionLt (a b : BinarySection) : Bool :=
  if a.isAllocatable ≠ b.isAllocatable then a.isAllocatable && !b.isAllocatable
  else if a.hasSectionRef ≠ b.hasSectionRef then a.hasSectionRef && !b.hasSectionRef
  else if a.hasSectionRef ∧ a.address ≠ b.address then decide (a.address < b.address)
  else if a.hasSectionRef ∧ a.address ≠ 0 ∧ a.size ≠ b.size then decide (a.size < b.size)
  else if a.isText ≠ b.isText then a.isText && !b.isText
  else if a.isWritable ≠ b.isWritable then !a.isWritable && b.isWritable
  else if a.isBSS ≠ b.isBSS then !a.isBSS && b.isBSS
  else decide (a.sectionNumber < b.sectionNumber)

/-- Models `operator==`: name, input address, input size, the data pointer of the
input contents view (`getData()` compares pointers, not bytes), alignment,
ELF type and ELF flags. -/
def sectionBEq (a b : BinarySection) : Bool :=
  a.name == b.name && a.address == b.address && a.size == b.size &&
  a.contentsData == b.contentsData && a.alignment == b.alignment &&
  a.elfType == b.elfType && a.elfFlags == b.elfFlags

/-- Models `addRelocation(Offset, Symbol, Type, Addend, Value)`: asserts
`Offset < getSize()`, then inserts into the static store.  `none` models the
assertion fault. -/
def addRelocation (s : BinarySection) (off sym ty addend value : Nat) :
    Option BinarySection :=
  if off < s.size then
    some { s with relocations := insertReloc s.relocations ⟨off, sym, ty, addend, value⟩ }
  else none

/-- Models `addDynamicRelocation(const Relocation &)`: asserts
`Reloc.Offset < getSize()`, then inserts into the dynamic store. -/
def addDynamicRelocation (s : BinarySection) (r : Relocation) :
    Option BinarySection :=
  if r.offset < s.size then
    some { s with dynamicRelocations := insertReloc s.dynamicRelocations r }
  else none

/-- Models `addPendingRelocation(const Relocation &)`: an unconditional `push_back`
onto the pending store — no bounds assertion. -/
def addPendingRelocation (s : BinarySection) (r : Relocation) : BinarySection :=
  { s with pendingRelocations := s.pendingRelocations ++ [r] }

/-- Models `getRelocationAt(Offset)`. -/
def getRelocationAt (s : BinarySection) (off : Nat) : Option Relocation :=
  findRelocAt s.relocations off

/-- Models `getDynamicRelocationAt(Offset)`. -/
def getDynamicRelocationAt (s : BinarySection) (off : Nat) : Option Relocation :=
  findRelocAt s.dynamicRelocations off

/-- Models `takeDynamicRelocationAt(Offset)`: find, and if present copy out and erase
that one element. -/
def takeDynamicRelocationAt (s : BinarySection) (off : Nat) :
    Option Relocation × BinarySection :=
  let p := takeFirstAt s.dynamicRelocations off
  (p.1, { s with dynamicRelocations := p.2 })

/-- Models `updateContents(NewData, NewSize)`: the output view becomes
`StringRef(NewData, NewData ? NewSize : 0)` — empty when the data pointer is
null — `OutputSize` becomes `NewSize`, and the section is finalized.  (The
buffer-release branch manages memory only and has no observable state here.) -/
def updateContents (s : BinarySection) (newData : Option (List Nat))
    (newSize : Nat) : BinarySection :=
  { s with
    outputContents := match newData with | some bs => bs | none => []
    outputSize := newSize
    isFinalized := true }

/-- Models `addPadding(PaddingSize)`: grows the `uint64_t` field `OutputSize`
(so the sum wraps modulo `2 ^ 64`) without touching the output contents. -/
def addPadding (s : BinarySection) (paddingSize : Nat) : BinarySection :=
  { s with outputSize := (s.outputSize + paddingSize) % 2 ^ 64 }

/-- Models `setSectionID(ID)`: asserts `!hasValidSectionID()` (`none` models the
assertion fault), then stores the id. -/
def setSectionID (s : BinarySection) (id : String) : Option BinarySection :=
  if s.hasValidSectionID then none else some { s with sectionID := id }

/-- Models `setOutputAddress(Address)`. -/
def setOutputAddress (s : BinarySection) (a : Nat) : BinarySection :=
  { s with outputAddress := a }

/-- Models `setIndex(I)`. -/
def setIndex (s : BinarySection) (i : Nat) : BinarySection :=
  { s with index := i }

end BinarySection

/-- The synthetic-section constructor
`BinarySection(BC, Name, Data, Size, Alignment, ELFType, ELFFlags)`:
no backing `SectionRef`, `Contents = StringRef(Data, Data ? Size : 0)`
(where `bytes` is the `size`-byte region at `dataPtr` when it is non-null),
address 0, immediately finalized with `OutputSize = Size` and
`OutputContents = Contents`; `count` is the value of the global `Count`
before the `++Count` that produces the section number.  The
`Alignment > 0` assertion is modelled by `none`. -/
def mkSynthetic (bcIsELF : Bool) (count : Nat) (name : String) (dataPtr : Nat)
    (bytes : List Nat) (size alignment elfType elfFlags : Nat) :
    Option BinarySection :=
  if alignment = 0 then none
  else some {
    bcIsELF := bcIsELF
    name := name
    hasSectionRef := false
    refIsText := false
    contentsData := dataPtr
    contents := if dataPtr ≠ 0 then bytes else []
    address := 0
    size := size
    inputFileOffset := 0
    alignment := alignment
    elfType := elfType
    elfFlags := elfFlags
    relocations := []
    dynamicRelocations := []
    pendingRelocations := []
    patches := []
    isFinalized := true
    outputName := name
    outputAddress := 0
    outputSize := size
    outputFileOffset := 0
    outputContents := if dataPtr ≠ 0 then bytes else []
    sectionNumber := count + 1
    sectionID := ""
    index := 0 }

/-- The explicit copy constructor `BinarySection(BC, Name, Section)`: copies
the input contents view, address, size, alignment, ELF type/flags, the static
and pending relocation stores; the `SectionRef` is the default one, and every
other field keeps its default (empty dynamic store, empty patch list,
not finalized, zero output state).  `count` is the global `Count` before
`++Count`. -/
def mkCopy (bcIsELF : Bool) (count : Nat) (name : String)
    (src : BinarySection) : BinarySection :=
  { bcIsELF := bcIsELF
    name := name
    hasSectionRef := false
    refIsText := false
    contentsData := src.contentsData
    contents := src.contents
    address := src.address
    size := src.size
    inputFileOffset := 0
    alignment := src.alignment
    elfType := src.elfType
    elfFlags := src.elfFlags
    relocations := src.relocations
    dynamicRelocations := []
    pendingRelocations := src.pendingRelocations
    patches := []
    isFinalized := false
    outputName := name
    outputAddress := 0
    outputSize := 0
    outputFileOffset := 0
    outputContents := []
    sectionNumber := count + 1
    sectionID := ""
    index := 0 }

end BoltModel

namespace BoltModel

/-- Strict lexicographic comparison of natural-number lists. -/
def lexLt : List Nat → List Nat → Bool
  | [], _ => false
  | _ :: _, [] => false
  | a :: as, b :: bs => if a < b then true else if b < a then false else lexLt as bs

theorem lexLt_nil : lexLt [] [] = false := rfl

theorem lexLt_cons (x y : Nat) (xs ys : List Nat) :
    lexLt (x :: xs) (y :: ys) = if x = y then lexLt xs ys else decide (x < y) := by
  by_cases hxy : x = y
  · simp [lexLt, hxy]
  · by_cases hlt : x < y
    · simp [lexLt, hxy, hlt]
    · have hgt : y < x := by omega
      simp [lexLt, hxy, hlt, hgt]

theorem lexLt_irrefl (xs : List Nat) : lexLt xs xs = false := by
  induction xs with
  | nil => rfl
  | cons a as ih => simp [lexLt_cons, ih]

theorem lexLt_asymm : ∀ xs ys : List Nat, lexLt xs ys = true → lexLt ys xs = false
  | [], ys, h => by cases ys <;> simp [lexLt] at h
  | _ :: _, [], h => by simp [lexLt] at h
  | x :: xs, y :: ys, h => by
    simp only [lexLt_cons] at h ⊢
    by_cases hxy : x = y
    · simp only [hxy, if_pos rfl] at h ⊢
      exact lexLt_asymm xs ys h
    · simp only [if_neg hxy, if_neg (Ne.symm hxy), decide_eq_true_eq,
        decide_eq_false_iff_not] at h ⊢
      omega

theorem lexLt_trans : ∀ xs ys zs : List Nat, lexLt xs ys = true → lexLt ys zs = true →
    lexLt xs zs = true
  | [], ys, _, h, _ => by cases ys <;> simp [lexLt] at h
  | _ :: _, [], _, h, _ => by simp [lexLt] at h
  | _ :: _, _ :: _, [], _, h2 => by simp [lexLt] at h2
  | x :: xs, y :: ys, z :: zs, h1, h2 => by
    simp only [lexLt_cons] at h1 h2 ⊢
    by_cases hxy : x = y <;> by_cases hyz : y = z
    · subst hxy; subst hyz
      simp only [if_pos rfl] at h1 h2 ⊢
      exact lexLt_trans xs ys zs h1 h2
    · subst hxy
      simp only [if_pos rfl, if_neg hyz] at h1 h2 ⊢
      exact h2
    · subst hyz
      simp only [if_pos rfl, if_neg hxy] at h1 h2 ⊢
      exact h1
    · simp only [if_neg hxy, if_neg hyz, decide_eq_true_eq] at h1 h2
      have hxz : x ≠ z := by omega
      simp only [if_neg hxz, decide_eq_true_eq]
      omega

theorem lexLt_total : ∀ xs ys : List Nat, xs.length = ys.length →
    lexLt xs ys = false → lexLt ys xs = false → xs = ys
  | [], [], _, _, _ => rfl
  | [], _ :: _, hl, _, _ => by simp at hl
  | _ :: _, [], hl, _, _ => by simp at hl
  | x :: xs, y :: ys, hl, h1, h2 => by
    simp only [lexLt_cons] at h1 h2
    by_cases hxy : x = y
    · subst hxy
      simp only [if_pos rfl] at h1 h2
      have hrec : xs = ys := lexLt_total xs ys (by simpa using hl) h1 h2
      simp [hrec]
    · simp only [if_neg hxy, if_neg (Ne.symm hxy), decide_eq_false_iff_not] at h1 h2
      exact absurd (by omega : x = y) hxy

theorem boolKey01_eq (x y : Bool) :
    ((if x then (0 : Nat) else 1) = (if y then 0 else 1)) ↔ x = y := by
  cases x <;> cases y <;> simp

theorem boolKey10_eq (x y : Bool) :
    ((if x then (1 : Nat) else 0) = (if y then 1 else 0)) ↔ x = y := by
  cases x <;> cases y <;> simp

/-- The eight-component key the ordering cascade is lexicographic on. -/
def orderKey (s : BinarySection) : List Nat :=
  [ (if s.isAllocatable then 0 else 1),
    (if s.hasSectionRef then 0 else 1),
    (if s.hasSectionRef then s.address else 0),
    (if s.hasSectionRef ∧ s.address ≠ 0 then s.size else 0),
    (if s.isText then 0 else 1),
    (if s.isWritable then 1 else 0),
    (if s.isBSS then 1 else 0),
    s.sectionNumber ]

theorem sectionLt_tail_eq (a b : BinarySection) :
    (if a.isText ≠ b.isText then a.isText && !b.isText
     else if a.isWritable ≠ b.isWritable then !a.isWritable && b.isWritable
     else if a.isBSS ≠ b.isBSS then !a.isBSS && b.isBSS
     else decide (a.sectionNumber < b.sectionNumber)) =
    (if (if a.isText then (0 : Nat) else 1) = (if b.isText then 0 else 1) then
       if (if a.isWritable then (1 : Nat) else 0) = (if b.isWritable then 1 else 0) then
         if (if a.isBSS then (1 : Nat) else 0) = (if b.isBSS then 1 else 0) then
           if a.sectionNumber = b.sectionNumber then false
           else decide (a.sectionNumber < b.sectionNumber)
         else decide ((if a.isBSS then (1 : Nat) else 0) < (if b.isBSS then 1 else 0))
       else decide ((if a.isWritable then (1 : Nat) else 0) < (if b.isWritable then 1 else 0))
     else decide ((if a.isText then (0 : Nat) else 1) < (if b.isText then 0 else 1))) := by
  by_cases h5 : a.isText = b.isText
  swap
  · rw [if_pos h5, if_neg ((boolKey01_eq _ _).not.mpr h5)]
    cases ha : a.isText <;> cases hb : b.isText <;> simp_all
  rw [if_neg (fun h => h h5), if_pos ((boolKey01_eq _ _).mpr h5)]
  by_cases h6 : a.isWritable = b.isWritable
  swap
  · rw [if_pos h6, if_neg ((boolKey10_eq _ _).not.mpr h6)]
    cases ha : a.isWritable <;> cases hb : b.isWritable <;> simp_all
  rw [if_neg (fun h => h h6), if_pos ((boolKey10_eq _ _).mpr h6)]
  by_cases h7 : a.isBSS = b.isBSS
  swap
  · rw [if_pos h7, if_neg ((boolKey10_eq _ _).not.mpr h7)]
    cases ha : a.isBSS <;> cases hb : b.isBSS <;> simp_all
  rw [if_neg (fun h => h h7), if_pos ((boolKey10_eq _ _).mpr h7)]
  by_cases h8 : a.sectionNumber = b.sectionNumber
  · simp [h8]
  · rw [if_neg h8]

theorem sectionLt_eq_lexLt (a b : BinarySection) :
    BinarySection.sectionLt a b = lexLt (orderKey a) (orderKey b) := by
  simp only [BinarySection.sectionLt, orderKey, lexLt_cons, lexLt_nil]
  by_cases h1 : a.isAllocatable = b.isAllocatable
  swap
  · rw [if_pos h1, if_neg ((boolKey01_eq _ _).not.mpr h1)]
    cases ha : a.isAllocatable <;> cases hb : b.isAllocatable <;> simp_all
  rw [if_neg (fun h => h h1), if_pos ((boolKey01_eq _ _).mpr h1)]
  by_cases h2 : a.hasSectionRef = b.hasSectionRef
  swap
  · rw [if_pos h2, if_neg ((boolKey01_eq _ _).not.mpr h2)]
    cases ha : a.hasSectionRef <;> cases hb : b.hasSectionRef <;> simp_all
  rw [if_neg (fun h => h h2), if_pos ((boolKey01_eq _ _).mpr h2)]
  by_cases hr : a.hasSectionRef
  swap
  · have hrb : ¬(b.hasSectionRef = true) := fun h => hr (h2 ▸ h)
    rw [if_neg (fun hc : a.hasSectionRef = true ∧ a.address ≠ b.address => hr hc.1),
        if_neg (fun hc : a.hasSectionRef = true ∧ a.address ≠ 0 ∧ a.size ≠ b.size => hr hc.1),
        if_neg hr, if_neg hrb, if_pos rfl,
        if_neg (fun hc : a.hasSectionRef = true ∧ a.address ≠ 0 => hr hc.1),
        if_neg (fun hc : b.hasSectionRef = true ∧ b.address ≠ 0 => hrb hc.1),
        if_pos rfl]
    exact sectionLt_tail_eq a b
  · have hrb : b.hasSectionRef = true := h2 ▸ hr
    rw [if_pos hr, if_pos hrb]
    by_cases h3 : a.address = b.address
    swap
    · rw [if_pos ⟨hr, h3⟩, if_neg h3]
    rw [if_neg (fun hc : a.hasSectionRef = true ∧ a.address ≠ b.address => hc.2 h3),
        if_pos h3]
    by_cases hz : a.address = 0
    · have hzb : b.address = 0 := h3 ▸ hz
      rw [if_neg (fun hc : a.hasSectionRef = true ∧ a.address ≠ 0 ∧ a.size ≠ b.size =>
            hc.2.1 hz),
          if_neg (fun hc : a.hasSectionRef = true ∧ a.address ≠ 0 => hc.2 hz),
          if_neg (fun hc : b.hasSectionRef = true ∧ b.address ≠ 0 => hc.2 hzb),
          if_pos rfl]
      exact sectionLt_tail_eq a b
    · have hzb : ¬(b.address = 0) := fun h => hz (h3 ▸ h)
      rw [if_pos (⟨hr, hz⟩ : a.hasSectionRef = true ∧ a.address ≠ 0),
          if_pos (⟨hrb, hzb⟩ : b.hasSectionRef = true ∧ b.address ≠ 0)]
      by_cases h4 : a.size = b.size
      swap
      · rw [if_pos ⟨hr, hz, h4⟩, if_neg h4]
      rw [if_neg (fun hc : a.hasSectionRef = true ∧ a.address ≠ 0 ∧ a.size ≠ b.size =>
            hc.2.2 h4),
          if_pos h4]
      exact sectionLt_tail_eq a b

end BoltModel

namespace BoltModel

/-- A concrete ELF PROGBITS section used to instantiate universally quantified
theorems: allocatable and writable, input size 16, alignment 4, creation
sequence number 1. -/
def exSection : BinarySection :=
  { bcIsELF := true
    name := "A"
    hasSectionRef := false
    refIsText := false
    contentsData := 0
    contents := []
    address := 0
    size := 16
    inputFileOffset := 0
    alignment := 4
    elfType := SHT_PROGBITS
    elfFlags := SHF_ALLOC ||| SHF_WRITE
    relocations := []
    dynamicRelocations := []
    pendingRelocations := []
    patches := []
    isFinalized := false
    outputName := "A"
    outputAddress := 0
    outputSize := 0
    outputFileOffset := 0
    outputContents := []
    sectionNumber := 1
    sectionID := ""
    index := 0 }

/-- C1: the ordering policy `operator<` is a strict total order on sections:
it is irreflexive, for two sections with distinct creation sequence numbers
exactly one of `a < b` and `b < a` holds (and never both), and it is
transitive. -/
theorem claim_C1_order_strict_total (a b c : BinarySection) :
    BinarySection.sectionLt a a = false ∧
    (a.sectionNumber ≠ b.sectionNumber →
      BinarySection.sectionLt a b = !BinarySection.sectionLt b a) ∧
    (BinarySection.sectionLt a b = true → BinarySection.sectionLt b c = true →
      BinarySection.sectionLt a c = true) := by
  refine ⟨?_, ?_, ?_⟩
  · rw [sectionLt_eq_lexLt]
    exact lexLt_irrefl _
  · intro hne
    rw [sectionLt_eq_lexLt, sectionLt_eq_lexLt]
    cases hab : lexLt (orderKey a) (orderKey b) with
    | true => rw [lexLt_asymm _ _ hab]; rfl
    | false =>
      cases hba : lexLt (orderKey b) (orderKey a) with
      | true => rfl
      | false =>
        exfalso
        have hk : orderKey a = orderKey b :=
          lexLt_total _ _ (by simp [orderKey]) hab hba
        simp only [orderKey, List.cons.injEq, and_true] at hk
        exact hne hk.2.2.2.2.2.2.2
  · intro hab hbc
    rw [sectionLt_eq_lexLt] at hab hbc ⊢
    exact lexLt_trans _ _ _ hab hbc

/-- Witness for C1 at three concrete sections with creation numbers 1, 2, 3. -/
theorem claim_C1_order_strict_total_witness :
    BinarySection.sectionLt exSection { exSection with sectionNumber := 2 } =
      !BinarySection.sectionLt { exSection with sectionNumber := 2 } exSection ∧
    BinarySection.sectionLt exSection { exSection with sectionNumber := 3 } = true :=
  ⟨(claim_C1_order_strict_total exSection { exSection with sectionNumber := 2 }
      { exSection with sectionNumber := 3 }).2.1 (by decide),
   (claim_C1_order_strict_total exSection { exSection with sectionNumber := 2 }
      { exSection with sectionNumber := 3 }).2.2 (by decide) (by decide)⟩

end BoltModel

namespace BoltModel

/-- C2 (amended): a static-store insertion (`addRelocation`) and a
dynamic-store insertion (`addDynamicRelocation`) succeed exactly when the
offset is strictly below the section size, and fault (assert) otherwise;
a pending-store insertion (`addPendingRelocation`) performs no bounds check
and unconditionally appends the record. -/
theorem claim_C2_insertion_bounds (s : BinarySection)
    (off sym ty addend value : Nat) (r : Relocation) :
    ((BinarySection.addRelocation s off sym ty addend value).isSome ↔ off < s.size) ∧
    ((BinarySection.addDynamicRelocation s r).isSome ↔ r.offset < s.size) ∧
    BinarySection.addPendingRelocation s r =
      { s with pendingRelocations := s.pendingRelocations ++ [r] } := by
  refine ⟨?_, ?_, rfl⟩
  · unfold BinarySection.addRelocation
    split_ifs with h <;> simp [h]
  · unfold BinarySection.addDynamicRelocation
    split_ifs with h <;> simp [h]

/-- C2 counterexample: on a section of size 1, a pending relocation at
offset 5 (which is not below the section size) is inserted without any
fault. -/
theorem claim_C2_counterexample :
    (BinarySection.addPendingRelocation { exSection with size := 1 }
        ⟨5, 0, 0, 0, 0⟩).pendingRelocations = [⟨5, 0, 0, 0, 0⟩] ∧
    ¬(5 < ({ exSection with size := 1 } : BinarySection).size) := by
  refine ⟨rfl, by decide⟩

/-- C3 (amended): a synthetic section built from a non-null data pointer with
`size` bytes is immediately finalized, has `outputSize = size`, reads back
exactly the supplied bytes as output contents, carries no input
`SectionRef` — and its input contents view is the supplied bytes themselves,
not empty. -/
theorem claim_C3_synthetic_roundtrip (bcIsELF : Bool) (count : Nat)
    (name : String) (dataPtr : Nat) (bytes : List Nat)
    (size alignment elfType elfFlags : Nat)
    (hptr : dataPtr ≠ 0) (halign : alignment ≠ 0) :
    (mkSynthetic bcIsELF count name dataPtr bytes size alignment elfType
        elfFlags).map
      (fun s => (s.isFinalized, s.outputSize, s.outputContents, s.contents,
        s.hasSectionRef)) =
      some (true, size, bytes, bytes, false) := by
  unfold mkSynthetic
  rw [if_neg halign]
  simp [hptr]

/-- Witness for C3 at a concrete synthetic section with bytes `[7, 8]`. -/
theorem claim_C3_synthetic_roundtrip_witness :
    (mkSynthetic true 0 "S" 100 [7, 8] 2 4 SHT_PROGBITS 0).map
      (fun s => (s.isFinalized, s.outputSize, s.outputContents, s.contents,
        s.hasSectionRef)) =
      some (true, 2, [7, 8], [7, 8], false) :=
  claim_C3_synthetic_roundtrip true 0 "S" 100 [7, 8] 2 4 SHT_PROGBITS 0
    (by decide) (by decide)

/-- C3 counterexample: a synthetic section built from one byte `[42]` has
`inputContents = [42]`, not the empty contents the claim requires. -/
theorem claim_C3_counterexample :
    (mkSynthetic true 0 "S" 100 [42] 1 1 SHT_PROGBITS 0).map
        BinarySection.contents = some [42] ∧
    [42] ≠ ([] : List Nat) := by
  refine ⟨rfl, by decide⟩

/-- C4 (amended): on an ELF section, the TLS-BSS (`isTBSS`) classification
forces `isAllocatable` to be false even when `SHF_ALLOC` is set; on a
non-ELF section `isAllocatable` is unconditionally true, whatever the format
bits say. -/
theorem claim_C4_tbss_not_allocatable (s : BinarySection) :
    (s.bcIsELF = true → s.isTBSS = true → s.isAllocatable = false) ∧
    (s.bcIsELF = false → s.isAllocatable = true) := by
  constructor
  · intro he ht
    simp [BinarySection.isAllocatable, he, ht]
  · intro he
    simp [BinarySection.isAllocatable, he]

/-- Witness for C4 at a concrete ELF TLS-BSS section (NOBITS with
ALLOC, WRITE and TLS flags). -/
theorem claim_C4_tbss_not_allocatable_witness :
    ({ exSection with
        elfType := SHT_NOBITS,
        elfFlags := SHF_ALLOC ||| SHF_WRITE ||| SHF_TLS } :
          BinarySection).isAllocatable = false :=
  (claim_C4_tbss_not_allocatable _).1 (by decide) (by decide)

/-- C4 counterexample: a section whose format bits mark it TLS and BSS
(NOBITS, ALLOC, WRITE, TLS) in a non-ELF binary context is reported
allocatable, contradicting the unconditional claim. -/
theorem claim_C4_counterexample :
    ({ exSection with
        bcIsELF := false,
        elfType := SHT_NOBITS,
        elfFlags := SHF_ALLOC ||| SHF_WRITE ||| SHF_TLS } :
          BinarySection).isTBSS = true ∧
    ({ exSection with
        bcIsELF := false,
        elfType := SHT_NOBITS,
        elfFlags := SHF_ALLOC ||| SHF_WRITE ||| SHF_TLS } :
          BinarySection).isAllocatable = true := by
  refine ⟨by decide, by decide⟩

end BoltModel

namespace BoltModel

theorem takeFirstAt_fst (rs : List Relocation) (off : Nat) :
    (takeFirstAt rs off).1 = findRelocAt rs off := by
  induction rs with
  | nil => rfl
  | cons x xs ih =>
    by_cases h : x.offset = off
    · have hb : (x.offset == off) = true := by simpa using h
      simp [takeFirstAt, findRelocAt, List.find?, h, hb]
    · have hb : (x.offset == off) = false := by simpa using h
      simp only [takeFirstAt, findRelocAt, List.find?, if_neg h, hb]
      simpa [findRelocAt] using ih

theorem takeFirstAt_of_none (rs : List Relocation) (off : Nat)
    (h : findRelocAt rs off = none) : takeFirstAt rs off = (none, rs) := by
  induction rs with
  | nil => rfl
  | cons x xs ih =>
    by_cases hx : x.offset = off
    · exfalso
      have hb : (x.offset == off) = true := by simpa using hx
      simp [findRelocAt, List.find?, hb] at h
    · have hb : (x.offset == off) = false := by simpa using hx
      simp only [findRelocAt, List.find?, hb] at h
      have hr := ih h
      simp [takeFirstAt, if_neg hx, hr]

theorem findRelocAt_of_filter_nil (rs : List Relocation) (off : Nat)
    (h : rs.filter (fun r => r.offset == off) = []) :
    findRelocAt rs off = none := by
  induction rs with
  | nil => rfl
  | cons x xs ih =>
    by_cases hx : x.offset = off
    · exfalso
      have hb : (x.offset == off) = true := by simpa using hx
      simp [List.filter, hb] at h
    · have hb : (x.offset == off) = false := by simpa using hx
      simp only [List.filter, hb] at h
      simp only [findRelocAt, List.find?, hb]
      simpa [findRelocAt] using ih h

theorem takeFirstAt_unique (rs : List Relocation) (off : Nat)
    (h : (rs.filter (fun r => r.offset == off)).length ≤ 1) :
    findRelocAt (takeFirstAt rs off).2 off = none := by
  induction rs with
  | nil => rfl
  | cons x xs ih =>
    by_cases hx : x.offset = off
    · have hb : (x.offset == off) = true := by simpa using hx
      simp only [List.filter, hb, List.length_cons] at h
      have hxs : xs.filter (fun r => r.offset == off) = [] :=
        List.eq_nil_of_length_eq_zero (by omega)
      simp only [takeFirstAt, if_pos hx]
      exact findRelocAt_of_filter_nil xs off hxs
    · have hb : (x.offset == off) = false := by simpa using hx
      simp only [List.filter, hb] at h
      have hr := ih h
      simp only [takeFirstAt, if_neg hx]
      simpa [findRelocAt, List.find?, hb] using hr

end BoltModel

namespace BoltModel

/-- C5 (amended): on the dynamic store, `takeDynamicRelocationAt` returns
exactly what `getDynamicRelocationAt` finds; when nothing is at the offset it
returns none and leaves the section unchanged; and when at most one record
sits at the offset, a successful take leaves a store in which a subsequent
`getDynamicRelocationAt` at that offset returns none. -/
theorem claim_C5_take_dynamic (s : BinarySection) (off : Nat) :
    (BinarySection.takeDynamicRelocationAt s off).1 =
      BinarySection.getDynamicRelocationAt s off ∧
    (BinarySection.getDynamicRelocationAt s off = none →
      BinarySection.takeDynamicRelocationAt s off = (none, s)) ∧
    ((s.dynamicRelocations.filter (fun r => r.offset == off)).length ≤ 1 →
      BinarySection.getDynamicRelocationAt
        (BinarySection.takeDynamicRelocationAt s off).2 off = none) := by
  refine ⟨?_, ?_, ?_⟩
  · exact takeFirstAt_fst s.dynamicRelocations off
  · intro h
    unfold BinarySection.takeDynamicRelocationAt
    rw [takeFirstAt_of_none s.dynamicRelocations off h]
  · intro h
    exact takeFirstAt_unique s.dynamicRelocations off h

/-- Witness for C5 on a dynamic store holding the single record
`⟨4, 7, 1, 0, 0⟩`: the take returns it and the subsequent lookup misses. -/
theorem claim_C5_take_dynamic_witness :
    (BinarySection.takeDynamicRelocationAt
        { exSection with dynamicRelocations := [⟨4, 7, 1, 0, 0⟩] } 4).1 =
      BinarySection.getDynamicRelocationAt
        { exSection with dynamicRelocations := [⟨4, 7, 1, 0, 0⟩] } 4 ∧
    BinarySection.getDynamicRelocationAt
      (BinarySection.takeDynamicRelocationAt
        { exSection with dynamicRelocations := [⟨4, 7, 1, 0, 0⟩] } 4).2 4 = none :=
  ⟨(claim_C5_take_dynamic
      { exSection with dynamicRelocations := [⟨4, 7, 1, 0, 0⟩] } 4).1,
   (claim_C5_take_dynamic
      { exSection with dynamicRelocations := [⟨4, 7, 1, 0, 0⟩] } 4).2.2 (by decide)⟩

/-- C5 counterexample: with two dynamic records stacked at offset 0 (which the
multiset store permits), the take succeeds yet the subsequent lookup still
finds a record, contradicting the unconditional claim. -/
theorem claim_C5_counterexample :
    (BinarySection.takeDynamicRelocationAt
        { exSection with dynamicRelocations := [⟨0, 1, 0, 0, 0⟩, ⟨0, 2, 0, 0, 0⟩] }
        0).1 = some ⟨0, 1, 0, 0, 0⟩ ∧
    BinarySection.getDynamicRelocationAt
      (BinarySection.takeDynamicRelocationAt
        { exSection with dynamicRelocations := [⟨0, 1, 0, 0, 0⟩, ⟨0, 2, 0, 0, 0⟩] }
        0).2 0 = some ⟨0, 2, 0, 0, 0⟩ := by
  refine ⟨rfl, rfl⟩

/-- Apply a sequence of `addPadding` requests in order. -/
def applyPaddings (s : BinarySection) (ps : List Nat) : BinarySection :=
  ps.foldl BinarySection.addPadding s

theorem applyPaddings_spec (ps : List Nat) : ∀ s : BinarySection,
    s.outputSize < 2 ^ 64 →
    (applyPaddings s ps).outputSize = (s.outputSize + ps.sum) % 2 ^ 64 ∧
    (applyPaddings s ps).outputContents = s.outputContents := by
  induction ps with
  | nil =>
    intro s hs
    exact ⟨(Nat.mod_eq_of_lt (by simpa using hs)).symm, rfl⟩
  | cons p ps ih =>
    intro s hs
    have h := ih (BinarySection.addPadding s p)
      (Nat.mod_lt _ (by norm_num))
    simp only [applyPaddings, List.foldl] at h ⊢
    refine ⟨?_, h.2⟩
    rw [h.1]
    simp only [BinarySection.addPadding, List.sum_cons]
    rw [Nat.mod_add_mod, Nat.add_assoc]

/-- C6 (amended): `updateContents` with a non-null `size`-byte buffer makes
`outputSize` the supplied size and finalizes the section; each `addPadding p`
grows `outputSize` by exactly `p` without touching the output bytes, provided
the 64-bit `OutputSize` does not wrap; and after such an update followed by
any sequence of padding requests whose total keeps the size below `2 ^ 64`,
`outputSize` equals the output-contents byte length plus the total requested
padding. -/
theorem claim_C6_update_then_padding (s : BinarySection) (bytes : List Nat)
    (n : Nat) (ps : List Nat) (hlen : bytes.length = n)
    (hov : n + ps.sum < 2 ^ 64) :
    (BinarySection.updateContents s (some bytes) n).outputSize = n ∧
    (BinarySection.updateContents s (some bytes) n).isFinalized = true ∧
    (∀ (t : BinarySection) (p : Nat), t.outputSize + p < 2 ^ 64 →
      (BinarySection.addPadding t p).outputSize = t.outputSize + p ∧
      (BinarySection.addPadding t p).outputContents = t.outputContents) ∧
    (applyPaddings (BinarySection.updateContents s (some bytes) n) ps).outputSize =
      (applyPaddings (BinarySection.updateContents s (some bytes) n)
          ps).outputContents.length + ps.sum := by
  refine ⟨rfl, rfl, fun t p hp => ⟨?_, rfl⟩, ?_⟩
  · simp only [BinarySection.addPadding]
    exact Nat.mod_eq_of_lt hp
  · have h := applyPaddings_spec ps (BinarySection.updateContents s (some bytes) n)
      (by simpa [BinarySection.updateContents] using (by omega : n < 2 ^ 64))
    rw [h.1, h.2]
    simp only [BinarySection.updateContents, hlen]
    rw [Nat.mod_eq_of_lt (by simpa [BinarySection.updateContents] using hov)]

/-- Witness for C6: update with two bytes then pad by 3 and 5. -/
theorem claim_C6_update_then_padding_witness :
    (BinarySection.updateContents exSection (some [9, 9]) 2).outputSize = 2 ∧
    (applyPaddings (BinarySection.updateContents exSection (some [9, 9]) 2)
        [3, 5]).outputSize =
      (applyPaddings (BinarySection.updateContents exSection (some [9, 9]) 2)
          [3, 5]).outputContents.length + [3, 5].sum :=
  ⟨(claim_C6_update_then_padding exSection [9, 9] 2 [3, 5] (by decide)
      (by decide)).1,
   (claim_C6_update_then_padding exSection [9, 9] 2 [3, 5] (by decide)
      (by decide)).2.2.2⟩

/-- C6 counterexample: `updateContents` with a null data pointer and size 5
leaves empty output contents with `outputSize = 5` and no padding requested,
so `outputSize` differs from the contents length plus requested padding. -/
theorem claim_C6_counterexample :
    (BinarySection.updateContents exSection none 5).outputSize = 5 ∧
    (BinarySection.updateContents exSection none 5).outputContents = [] ∧
    (5 : Nat) ≠ 0 + 0 := by
  refine ⟨rfl, rfl, by decide⟩

end BoltModel

namespace BoltModel

/-- C7 (amended): provided the input geometry does not wrap the 64-bit address
space, a section of nonzero size contains exactly the addresses `A` with
`start ≤ A < start + size`, and a zero-size section contains exactly its own
start address. -/
theorem claim_C7_contains_address (s : BinarySection) (a : Nat)
    (hov : s.address + s.size < 2 ^ 64) :
    (s.size ≠ 0 →
      (s.containsAddress a = true ↔ s.address ≤ a ∧ a < s.address + s.size)) ∧
    (s.size = 0 → (s.containsAddress a = true ↔ a = s.address)) := by
  unfold BinarySection.containsAddress BinarySection.endAddress
  rw [Nat.mod_eq_of_lt hov]
  simp only [Bool.or_eq_true, Bool.and_eq_true, decide_eq_true_eq]
  constructor
  · intro hsz
    omega
  · intro hsz
    omega

/-- Witness for C7 on the concrete section at address 0 with size 16,
queried at address 3. -/
theorem claim_C7_contains_address_witness :
    exSection.containsAddress 3 = true ↔
      exSection.address ≤ 3 ∧ 3 < exSection.address + exSection.size :=
  (claim_C7_contains_address exSection 3 (by decide)).1 (by decide)

/-- C7 counterexample: with `address = 2 ^ 64 - 1` and `size = 2` the end
address wraps around, and the section fails to contain its own start address
even though `start ≤ start < start + size` holds arithmetically and the size
is nonzero. -/
theorem claim_C7_counterexample :
    ({ exSection with
        hasSectionRef := true,
        address := 2 ^ 64 - 1,
        size := 2 } : BinarySection).containsAddress (2 ^ 64 - 1) = false ∧
    (2 ^ 64 - 1 : Nat) ≤ 2 ^ 64 - 1 ∧
    (2 ^ 64 - 1 : Nat) < (2 ^ 64 - 1) + 2 ∧
    (2 : Nat) ≠ 0 := by
  refine ⟨?_, by omega, by omega, by omega⟩
  unfold BinarySection.containsAddress BinarySection.endAddress
  norm_num

/-- C8 (amended): `setSectionID` succeeds exactly when the section holds no
valid (nonempty) id yet; after a successful assignment of a nonempty id, a
second call faults (assertion) and the stored id is the first one.  An empty
id, however, never makes the section id valid, so assigning an empty string
does not arm the fault. -/
theorem claim_C8_set_id_once (s t : BinarySection) (id1 id2 : String) :
    ((BinarySection.setSectionID s id1).isSome ↔ s.hasValidSectionID = false) ∧
    (BinarySection.setSectionID s id1 = some t → id1 ≠ "" →
      BinarySection.setSectionID t id2 = none ∧ t.sectionID = id1) := by
  constructor
  · unfold BinarySection.setSectionID
    cases h : s.hasValidSectionID <;> simp [h]
  · intro h hne
    unfold BinarySection.setSectionID at h
    by_cases hv : s.hasValidSectionID
    · rw [if_pos hv] at h
      exact absurd h (by simp)
    · rw [if_neg hv] at h
      cases h
      unfold BinarySection.setSectionID BinarySection.hasValidSectionID
      simp [hne]

/-- Witness for C8: assigning `"x"` to a fresh section succeeds, and a second
assignment on the result faults while the id stays `"x"`. -/
theorem claim_C8_set_id_once_witness :
    BinarySection.setSectionID { exSection with sectionID := "x" } "y" = none ∧
    ({ exSection with sectionID := "x" } : BinarySection).sectionID = "x" :=
  (claim_C8_set_id_once exSection { exSection with sectionID := "x" } "x" "y").2
    rfl (by decide)

/-- C8 counterexample: a first call assigning the empty id succeeds but does
not make the id valid, so a second call also succeeds — no assertion fault —
and replaces the stored id. -/
theorem claim_C8_counterexample :
    (BinarySection.setSectionID exSection "").bind
        (fun t => BinarySection.setSectionID t "x") =
      some { exSection with sectionID := "x" } := by
  rfl

/-- C9: the explicit copy constructor copies the input contents view (pointer
and bytes), address, size, alignment, ELF type/flags, the static and the
pending relocation stores; the copy has an empty dynamic store, an empty patch
list, no input section reference, and — whenever the source was created under
the current global counter value — a strictly larger creation sequence
number. -/
theorem claim_C9_copy_constructor (bcIsELF : Bool) (count : Nat) (name : String)
    (src : BinarySection) :
    (mkCopy bcIsELF count name src).contents = src.contents ∧
    (mkCopy bcIsELF count name src).contentsData = src.contentsData ∧
    (mkCopy bcIsELF count name src).address = src.address ∧
    (mkCopy bcIsELF count name src).size = src.size ∧
    (mkCopy bcIsELF count name src).alignment = src.alignment ∧
    (mkCopy bcIsELF count name src).elfType = src.elfType ∧
    (mkCopy bcIsELF count name src).elfFlags = src.elfFlags ∧
    (mkCopy bcIsELF count name src).relocations = src.relocations ∧
    (mkCopy bcIsELF count name src).pendingRelocations = src.pendingRelocations ∧
    (mkCopy bcIsELF count name src).dynamicRelocations = [] ∧
    (mkCopy bcIsELF count name src).patches = [] ∧
    (mkCopy bcIsELF count name src).hasSectionRef = false ∧
    (src.sectionNumber ≤ count →
      src.sectionNumber < (mkCopy bcIsELF count name src).sectionNumber) := by
  refine ⟨rfl, rfl, rfl, rfl, rfl, rfl, rfl, rfl, rfl, rfl, rfl, rfl, ?_⟩
  intro h
  simp only [mkCopy]
  omega

/-- Witness for C9: copying the concrete section (creation number 1) under
counter value 5 yields creation number 6. -/
theorem claim_C9_copy_constructor_witness :
    (mkCopy true 5 "B" exSection).dynamicRelocations = [] ∧
    exSection.sectionNumber < (mkCopy true 5 "B" exSection).sectionNumber :=
  ⟨(claim_C9_copy_constructor true 5 "B" exSection).2.2.2.2.2.2.2.2.2.1,
   (claim_C9_copy_constructor true 5 "B" exSection).2.2.2.2.2.2.2.2.2.2.2.2
     (by decide)⟩

/-- C10: section equality compares exactly name, input address, input size,
the input-contents data pointer, alignment, ELF type and ELF flags; it is
unchanged by the bytes behind the pointer and by every piece of output state:
relocation stores, patches, output contents/size/address/offset/name, the
finalization flag, the section id and the index. -/
theorem claim_C10_equality_keys (a b : BinarySection) :
    (BinarySection.sectionBEq a b = true ↔
      (a.name = b.name ∧ a.address = b.address ∧ a.size = b.size ∧
       a.contentsData = b.contentsData ∧ a.alignment = b.alignment ∧
       a.elfType = b.elfType ∧ a.elfFlags = b.elfFlags)) ∧
    (∀ (bs : List Nat), BinarySection.sectionBEq { a with contents := bs } b =
      BinarySection.sectionBEq a b) ∧
    (∀ (rs ds qs : List Relocation) (pat : List (Nat × List Nat))
       (oc : List Nat) (n oa ofo : Nat) (i : Nat) (fin : Bool)
       (onm oid : String),
      BinarySection.sectionBEq
        { a with
            relocations := rs,
            dynamicRelocations := ds,
            pendingRelocations := qs,
            patches := pat,
            outputContents := oc,
            outputSize := n,
            outputAddress := oa,
            outputFileOffset := ofo,
            index := i,
            isFinalized := fin,
            outputName := onm,
            sectionID := oid } b =
      BinarySection.sectionBEq a b) := by
  refine ⟨?_, fun bs => rfl, fun rs ds qs pat oc n oa ofo i fin onm oid => rfl⟩
  unfold BinarySection.sectionBEq
  simp only [Bool.and_eq_true, beq_iff_eq]
  tauto

end BoltModel
